import Mathlib

/-!
# Pintos system-call layer (`src/userprog/syscall.c`)

A shallow embedding of the system-call dispatcher and its handlers.

* Pointers, `unsigned` and `uint32_t` values are natural numbers below `2 ^ 32`;
  pointer and unsigned arithmetic is taken modulo `2 ^ 32`.
* `int` values are integers between `-2 ^ 31` and `2 ^ 31 - 1`; the result of `int`
  arithmetic is reduced to 32 bits (`wrap_int`), as the machine does, and the
  conversions between `int` and `uint32_t` that the source writes as casts are
  `toInt32` and `toU32`.
* The kernel services the file calls into (file system, console, process manager,
  `thread_exit`, `shutdown_power_off`) are not part of the file: they are the fields
  of `Services`, acting on an abstract kernel state, and every call of one is
  recorded in the event log of the `World`.
* `thread_exit` and `shutdown_power_off` do not return: a computation that reaches
  one of them stops (`Res.stop`) and nothing after it runs.
-/

namespace Pintos

/-! ## Machine integers -/

/-- Conversion of an `int` to `uint32_t`. -/
def toU32 (i : Int) : Nat := (i % 4294967296).toNat

/-- Conversion of a `uint32_t` to `int` (two's complement). -/
def toInt32 (n : Nat) : Int :=
  if n % 4294967296 < 2147483648 then ((n % 4294967296 : Nat) : Int)
  else ((n % 4294967296 : Nat) : Int) - 4294967296

/-- The `int` that the machine computes for an `int` expression whose mathematical
value is `i`: the value reduced to 32 bits, two's complement. -/
def wrap_int (i : Int) : Int := toInt32 (toU32 i)

/-- Pointer (and `unsigned`) addition on a 32-bit machine, in bytes. -/
def ptr_add (p n : Nat) : Nat := (p + n) % 4294967296

/-- Modelled from the spec: `threads/vaddr.h` is not under `src/`. `PHYS_BASE` is
the boundary of the spec, the first address that does not belong to the user
process; Pintos fixes it at 3 GB. -/
def PHYS_BASE : Nat := 3221225472

/-- Modelled from the spec: `threads/vaddr.h` is not under `src/`. An address is a
user address when it lies below the boundary. -/
def is_user_vaddr (vaddr : Nat) : Bool := decide (vaddr < PHYS_BASE)

/-! ## System-call numbers

Modelled from the spec: `lib/syscall-nr.h` is not under `src/`. The thirteen
operation codes are numbered from 0 in the order in which section 6 of the spec
lists them, which is the order of the Pintos enumeration. That enumeration goes
on with the codes of the later projects (`SYS_MMAP` = 13, ...) and ends with
`SYS_INUMBER` = 19, the name the dispatcher uses as its upper bound. -/

/-- Modelled from the spec: operation code of halt. -/
def SYS_HALT : Nat := 0
/-- Modelled from the spec: operation code of exit. -/
def SYS_EXIT : Nat := 1
/-- Modelled from the spec: operation code of exec. -/
def SYS_EXEC : Nat := 2
/-- Modelled from the spec: operation code of wait. -/
def SYS_WAIT : Nat := 3
/-- Modelled from the spec: operation code of create. -/
def SYS_CREATE : Nat := 4
/-- Modelled from the spec: operation code of remove. -/
def SYS_REMOVE : Nat := 5
/-- Modelled from the spec: operation code of open. -/
def SYS_OPEN : Nat := 6
/-- Modelled from the spec: operation code of filesize. -/
def SYS_FILESIZE : Nat := 7
/-- Modelled from the spec: operation code of read. -/
def SYS_READ : Nat := 8
/-- Modelled from the spec: operation code of write. -/
def SYS_WRITE : Nat := 9
/-- Modelled from the spec: operation code of seek. -/
def SYS_SEEK : Nat := 10
/-- Modelled from the spec: operation code of tell. -/
def SYS_TELL : Nat := 11
/-- Modelled from the spec: operation code of close. -/
def SYS_CLOSE : Nat := 12
/-- Modelled from the spec: last code of the Pintos enumeration in
`lib/syscall-nr.h`, which has seven more codes after `SYS_CLOSE`. -/
def SYS_INUMBER : Nat := 19

/-! ## State -/

/-- User memory, byte by byte. -/
abbrev Mem := Nat → Nat

/-- The 32-bit little-endian word stored at `a`. -/
def load32 (m : Mem) (a : Nat) : Nat :=
  (m a % 256 + 256 * (m (ptr_add a 1) % 256) + 65536 * (m (ptr_add a 2) % 256)
    + 16777216 * (m (ptr_add a 3) % 256)) % 4294967296

/-- The fields of `struct thread` that `syscall.c` uses. `files` is the table of
open files (a null pointer, 0, marks an empty slot) and `fd` the index of the next
free slot. The source indexes `files` without any bounds check, and so does the
embedding: the table is a map on all integers. `fd` is an `int`: the source's
arithmetic on it (`t->fd++`, `tmp + 2`, `t->fd -= 2`) is 32-bit arithmetic. -/
structure thread where
  name : String
  files : Int → Nat
  fd : Int

/-- The fields of `struct intr_frame` that `syscall.c` uses. -/
structure intr_frame where
  esp : Nat
  eax : Nat

/-- The system-call handlers of `syscall.c`. -/
inductive Handler
  | s_halt | s_exit | s_exec | s_wait | s_create | s_remove | s_open
  | s_filesize | s_read | s_write | s_seek | s_tell | s_close
  deriving DecidableEq, Repr

/-- What the log records: the entry into a handler with its arguments, and every
call of a function that lives outside `syscall.c`, with its arguments. -/
inductive Event
  | call (h : Handler) (args : List Int)
  | printf_exit (name : String) (status : Int)
  | thread_exit
  | shutdown_power_off
  | filesys_open (file : Nat)
  | filesys_create (file : Nat) (initial_size : Nat)
  | filesys_remove (file : Nat)
  | file_read (f : Nat) (buffer : Nat) (size : Nat)
  | file_write (f : Nat) (buffer : Nat) (size : Nat)
  | file_length (f : Nat)
  | file_seek (f : Nat) (position : Nat)
  | file_tell (f : Nat)
  | file_close (f : Nat)
  | process_execute (cmd_line : Nat)
  | process_wait (pid : Int)
  | input_getc
  | putbuf (buffer : Nat) (size : Nat)
  deriving DecidableEq, Repr

/-- An event that is a call of the file system or of the process manager. -/
def Event.isService : Event → Bool
  | .filesys_open _ => true
  | .filesys_create _ _ => true
  | .filesys_remove _ => true
  | .file_read _ _ _ => true
  | .file_write _ _ _ => true
  | .file_length _ => true
  | .file_seek _ _ => true
  | .file_tell _ => true
  | .file_close _ => true
  | .process_execute _ => true
  | .process_wait _ => true
  | _ => false

/-- The kernel services `syscall.c` calls, over an abstract kernel state `K`.
A null result of `filesys_open` is the failure to open. The services see user
memory and the kernel state, not the descriptor table of the thread. -/
structure Services (K : Type) where
  filesys_open : Nat → Mem → K → Nat × K
  filesys_create : Nat → Nat → Mem → K → Bool × K
  filesys_remove : Nat → Mem → K → Bool × K
  file_read : Nat → Nat → Nat → Mem → K → Int × Mem × K
  file_write : Nat → Nat → Nat → Mem → K → Int × K
  file_length : Nat → K → Int
  file_seek : Nat → Nat → K → K
  file_tell : Nat → K → Int
  file_close : Nat → K → K
  process_execute : Nat → Mem → K → Int × K
  process_wait : Int → K → Int × K
  input_getc : K → Nat × K
  putbuf : Nat → Nat → Mem → K → K

/-- Everything a system call can read or change. -/
structure World (K : Type) where
  f : intr_frame
  t : thread
  mem : Mem
  k : K
  log : List Event

/-- Why a computation did not return. -/
inductive Stop
  | exited
  | halted
  | undefined_value
  deriving DecidableEq, Repr

/-- Result of running a piece of the source: it returned a value, or it stopped
(`thread_exit`, `shutdown_power_off`, or control reached the end of a function
that has to return a value). -/
inductive Res (K : Type) (α : Type)
  | ret (a : α) (w : World K)
  | stop (s : Stop) (w : World K)

/-- The world at the end of a run. -/
def Res.world {K α : Type} : Res K α → World K
  | .ret _ w => w
  | .stop _ w => w

/-- The value a run returned, when it returned. -/
def Res.value {K α : Type} : Res K α → Option α
  | .ret a _ => some a
  | .stop _ _ => none

/-- The reason a run stopped, when it did. -/
def Res.stopped {K α : Type} : Res K α → Option Stop
  | .ret _ _ => none
  | .stop s _ => some s

/-- A piece of the source, as a function of the world. -/
def M (K : Type) (α : Type) : Type := World K → Res K α

/-- Sequencing: what follows a stop does not run. -/
def M.bind {K α β : Type} (x : M K α) (g : α → M K β) : M K β := fun w =>
  match x w with
  | .ret a w1 => g a w1
  | .stop s w1 => .stop s w1

/-- A value, with no effect. -/
def M.pure {K α : Type} (a : α) : M K α := fun w => .ret a w

instance (K : Type) : Monad (M K) where
  pure := M.pure
  bind := M.bind

/-- Append an event to the log. -/
def emit {K : Type} (e : Event) : M K Unit := fun w =>
  .ret () { w with log := w.log ++ [e] }

/-- Returns `thread_current ()`. -/
def thread_current {K : Type} : M K thread := fun w => .ret w.t w

/-- Returns `thread_name ()`. -/
def thread_name {K : Type} : M K String := fun w => .ret w.t.name w

/-- The `thread_exit ()` call: the process is gone and nothing after it runs. -/
def thread_exit {K : Type} : M K Unit := fun w =>
  .stop .exited { w with log := w.log ++ [Event.thread_exit] }

/-- The `shutdown_power_off ()` call: the machine is off. -/
def shutdown_power_off {K : Type} : M K Unit := fun w =>
  .stop .halted { w with log := w.log ++ [Event.shutdown_power_off] }

/-- Control reaches the closing brace of a function that returns a value. -/
def fall_off {K α : Type} : M K α := fun w => .stop .undefined_value w

/-- Assignment `f->eax = v`. -/
def set_eax {K : Type} (v : Nat) : M K Unit := fun w =>
  .ret () { w with f := { w.f with eax := v } }

/-- Assignment `t->files[i] = p`. -/
def set_files {K : Type} (i : Int) (p : Nat) : M K Unit := fun w =>
  .ret () { w with t := { w.t with files := Function.update w.t.files i p } }

/-- Assignment `t->fd = v`. -/
def set_fd {K : Type} (v : Int) : M K Unit := fun w =>
  .ret () { w with t := { w.t with fd := v } }

/-- Store of one byte into user memory. -/
def store8 {K : Type} (a : Nat) (v : Nat) : M K Unit := fun w =>
  .ret () { w with mem := Function.update w.mem a (v % 256) }

/-- Read of the 32-bit word at `a`. -/
def read32 {K : Type} (a : Nat) : M K Nat := fun w => .ret (load32 w.mem a) w

/-- A call of a service that changes the kernel state only. -/
def service {K α : Type} (e : Event) (g : Mem → K → α × K) : M K α := fun w =>
  .ret (g w.mem w.k).1 { w with k := (g w.mem w.k).2, log := w.log ++ [e] }

/-! ## The source -/

/-- Source `s_exit`, lines 183-188. -/
def s_exit {K : Type} (status : Int) : M K Unit := do
  emit (.call .s_exit [status])
  let name ← thread_name
  emit (.printf_exit name status)
  thread_exit

/-- The loop of `parse_syscall_args`: `*out = *++sp`, `num_args` times. Returns the
words read and the final `sp`. -/
def parse_loop (m : Mem) : Nat → Nat → List Nat × Nat
  | 0, sp => ([], sp)
  | n + 1, sp =>
    let sp1 := ptr_add sp 4
    let r := parse_loop m n sp1
    (load32 m sp1 :: r.1, r.2)

/-- Source `parse_syscall_args`, lines 46-59. The output slots are returned as a
list. -/
def parse_syscall_args {K : Type} (sp : Nat) (num_args : Nat) : M K (List Nat) := fun w =>
  let r := parse_loop w.mem num_args sp
  if PHYS_BASE ≤ r.2 then
    match (thread_exit : M K Unit) w with
    | .ret _ w1 => .ret r.1 w1
    | .stop s w1 => .stop s w1
  else .ret r.1 w

/-- Source `s_halt`, lines 154-158. -/
def s_halt {K : Type} : M K Unit := do
  emit (.call .s_halt [])
  shutdown_power_off

/-- Source `s_open`, lines 160-181. -/
def s_open {K : Type} (sv : Services K) (file : Nat) : M K Int := do
  emit (.call .s_open [(file : Int)])
  if file = 0 then
    pure (-1)
  else if !is_user_vaddr file then
    s_exit (-1)
    fall_off
  else
    let t ← thread_current
    let p ← service (.filesys_open file) (sv.filesys_open file)
    set_files t.fd p
    let t ← thread_current
    if t.files t.fd = 0 then
      pure (-1)
    else
      let tmp := t.fd
      set_fd (wrap_int (t.fd + 1))
      pure (wrap_int (tmp + 2))

/-- The console loop of `s_read`, lines 205-208: `n` iterations are left and `i`
bytes are stored. Returns the final `i`. -/
def getc_loop {K : Type} (sv : Services K) (new_buffer : Nat) : Nat → Nat → M K Nat
  | 0, i => pure i
  | n + 1, i => do
    let c ← service .input_getc (fun _ k => sv.input_getc k)
    store8 (ptr_add new_buffer i) c
    getc_loop sv new_buffer n (i + 1)

/-- The `file_read` call, which may store into user memory. -/
def file_read {K : Type} (sv : Services K) (f buffer size : Nat) : M K Int := fun w =>
  let r := sv.file_read f buffer size w.mem w.k
  .ret r.1 { w with mem := r.2.1, k := r.2.2, log := w.log ++ [Event.file_read f buffer size] }

/-- Source `s_read`, lines 190-223. -/
def s_read {K : Type} (sv : Services K) (fd : Int) (buffer : Nat) (size : Nat) : M K Int := do
  emit (.call .s_read [fd, (buffer : Int), (size : Int)])
  if !is_user_vaddr buffer || !is_user_vaddr (ptr_add buffer size) then
    pure (-1)
  else if fd = 1 then
    pure (-1)
  else if fd = 0 then
    let i ← getc_loop sv buffer size 0
    pure (toInt32 i)
  else if fd > 1 then
    let t ← thread_current
    let f := t.files (fd - 2)
    if f = 0 then
      pure (-1)
    else
      file_read sv f buffer size
  else
    fall_off

/-- Source `s_write`, lines 225-255. -/
def s_write {K : Type} (sv : Services K) (fd : Int) (buffer : Nat) (size : Nat) : M K Int := do
  emit (.call .s_write [fd, (buffer : Int), (size : Int)])
  if !is_user_vaddr buffer || !is_user_vaddr (ptr_add buffer size) then
    pure (-1)
  else if fd = 1 then
    service (.putbuf buffer size) (fun m k => ((), sv.putbuf buffer size m k))
    pure (toInt32 size)
  else if fd = 0 then
    pure (-1)
  else if fd > 1 then
    let t ← thread_current
    let f := t.files (fd - 2)
    if f = 0 then
      pure (-1)
    else
      service (.file_write f buffer size) (sv.file_write f buffer size)
  else
    fall_off

/-- Source `s_create`, lines 257-264. -/
def s_create {K : Type} (sv : Services K) (file : Nat) (initial_size : Nat) : M K Int := do
  emit (.call .s_create [(file : Int), (initial_size : Int)])
  if !is_user_vaddr file || file = 0 then
    pure (-1)
  else
    let b ← service (.filesys_create file initial_size) (sv.filesys_create file initial_size)
    pure (if b then 1 else 0)

/-- Source `s_remove`, lines 265-284. The `result` that is returned is the one
declared at the top of the function; the block of the `else` branch declares a
`result` of its own, which receives the answer of `filesys_remove`. -/
def s_remove {K : Type} (sv : Services K) (file : Nat) : M K Bool := do
  emit (.call .s_remove [(file : Int)])
  let result := false
  let t ← thread_current
  if file = 0 then
    pure false
  else
    if !is_user_vaddr file then
      s_exit (-1)
    else
      let _result ← service (.filesys_remove file) (sv.filesys_remove file)
      set_fd (wrap_int (t.fd - 2))
    pure result

/-- Source `s_filesize`, lines 285-293. -/
def s_filesize {K : Type} (sv : Services K) (fd : Int) : M K Int := do
  emit (.call .s_filesize [fd])
  let t ← thread_current
  let f := t.files fd
  if f = 0 then
    pure (-1)
  else
    service (.file_length f) (fun _ k => (sv.file_length f k, k))

/-- Source `s_seek`, lines 294-303. -/
def s_seek {K : Type} (sv : Services K) (fd : Int) (position : Nat) : M K Int := do
  emit (.call .s_seek [fd, (position : Int)])
  let t ← thread_current
  let f := t.files fd
  if f = 0 then
    pure (-1)
  else
    service (.file_seek f position) (fun _ k => ((), sv.file_seek f position k))
    pure 0

/-- Source `s_tell`, lines 304-316. The result type is `unsigned`. -/
def s_tell {K : Type} (sv : Services K) (fd : Int) : M K Nat := do
  emit (.call .s_tell [fd])
  let t ← thread_current
  let f := t.files fd
  if f = 0 then
    pure (toU32 (-1))
  else
    let r ← service (.file_tell f) (fun _ k => (sv.file_tell f k, k))
    pure (toU32 r)

/-- Source `s_close`, lines 317-325. `file_close` receives the handle itself. -/
def s_close {K : Type} (sv : Services K) (fd : Int) : M K Int := do
  emit (.call .s_close [fd])
  let t ← thread_current
  if t.files fd = 0 then
    pure 0
  else
    service (.file_close (toU32 fd)) (fun _ k => ((), sv.file_close (toU32 fd) k))
    pure 1

/-- Source `s_exec`, lines 327-337. -/
def s_exec {K : Type} (sv : Services K) (cmd_line : Nat) : M K Int := do
  emit (.call .s_exec [(cmd_line : Int)])
  if cmd_line = 0 || !is_user_vaddr cmd_line then
    s_exit (-1)
  let result ← service (.process_execute cmd_line) (sv.process_execute cmd_line)
  pure result

/-- Source `s_wait`, lines 338-344. -/
def s_wait {K : Type} (sv : Services K) (pid : Int) : M K Int := do
  emit (.call .s_wait [pid])
  let result ← service (.process_wait pid) (fun _ k => sv.process_wait pid k)
  pure result

/-- Reads `f->esp`. -/
def get_esp {K : Type} : M K Nat := fun w => .ret w.f.esp w

/-- Source `syscall_handler`, lines 61-152. The `switch` is the chain of its cases
in the order of the source. -/
def syscall_handler {K : Type} (sv : Services K) : M K Unit := do
  let sp ← get_esp
  if !is_user_vaddr sp then
    s_exit (-1)
  if !(is_user_vaddr (ptr_add sp 4) && is_user_vaddr (ptr_add sp 8)
      && is_user_vaddr (ptr_add sp 12)) then
    s_exit (-1)
  let num ← read32 sp
  if num < SYS_HALT || num > SYS_INUMBER then
    s_exit (-1)
  let syscallnum ← read32 sp
  let first_arg := 0
  let second_arg := 0
  let third_arg := 0
  if syscallnum = SYS_EXIT then
    let a ← parse_syscall_args sp 1
    let first_arg := a.getD 0 first_arg
    set_eax first_arg
    s_exit (toInt32 first_arg)
  else if syscallnum = SYS_READ then
    let a ← parse_syscall_args sp 3
    let first_arg := a.getD 0 first_arg
    let second_arg := a.getD 1 second_arg
    let third_arg := a.getD 2 third_arg
    let r ← s_read sv (toInt32 first_arg) second_arg third_arg
    set_eax (toU32 r)
  else if syscallnum = SYS_WRITE then
    let a ← parse_syscall_args sp 3
    let first_arg := a.getD 0 first_arg
    let second_arg := a.getD 1 second_arg
    let third_arg := a.getD 2 third_arg
    let r ← s_write sv (toInt32 first_arg) second_arg third_arg
    set_eax (toU32 r)
  else if syscallnum = SYS_OPEN then
    let a ← parse_syscall_args sp 1
    let first_arg := a.getD 0 first_arg
    let r ← s_open sv first_arg
    set_eax (toU32 r)
  else if syscallnum = SYS_HALT then
    s_halt
  else if syscallnum = SYS_EXEC then
    let a ← parse_syscall_args sp 1
    let first_arg := a.getD 0 first_arg
    let r ← s_exec sv first_arg
    set_eax (toU32 r)
  else if syscallnum = SYS_WAIT then
    let a ← parse_syscall_args sp 1
    let first_arg := a.getD 0 first_arg
    let r ← s_wait sv (toInt32 first_arg)
    set_eax (toU32 r)
  else if syscallnum = SYS_CREATE then
    let a ← parse_syscall_args sp 2
    let first_arg := a.getD 0 first_arg
    let second_arg := a.getD 1 second_arg
    let r ← s_create sv first_arg second_arg
    set_eax (toU32 r)
  else if syscallnum = SYS_REMOVE then
    let a ← parse_syscall_args sp 1
    let first_arg := a.getD 0 first_arg
    let r ← s_remove sv first_arg
    set_eax (if r then 1 else 0)
  else if syscallnum = SYS_FILESIZE then
    let a ← parse_syscall_args sp 1
    let first_arg := a.getD 0 first_arg
    let r ← s_filesize sv (toInt32 first_arg)
    set_eax (toU32 r)
  else if syscallnum = SYS_SEEK then
    let a ← parse_syscall_args sp 2
    let first_arg := a.getD 0 first_arg
    let second_arg := a.getD 1 second_arg
    let r ← s_seek sv (toInt32 first_arg) second_arg
    set_eax (toU32 r)
  else if syscallnum = SYS_TELL then
    let a ← parse_syscall_args sp 1
    let first_arg := a.getD 0 first_arg
    let r ← s_tell sv (toInt32 first_arg)
    set_eax r
  else if syscallnum = SYS_CLOSE then
    let a ← parse_syscall_args sp 1
    let first_arg := a.getD 0 first_arg
    let r ← s_close sv (toInt32 first_arg)
    set_eax (toU32 r)
  else
    s_exit (toInt32 first_arg)

/-! ## Sequences of file system calls -/

/-- The events a run has added to the log of the world `w` it started from. -/
def new_events {K α : Type} (w : World K) (r : Res K α) : List Event :=
  r.world.log.drop w.log.length

/-- One file system call of a user program, with its arguments. -/
inductive FileCall
  | s_open (file : Nat)
  | s_close (fd : Int)
  | s_create (file : Nat) (initial_size : Nat)
  | s_remove (file : Nat)
  | s_read (fd : Int) (buffer : Nat) (size : Nat)
  | s_write (fd : Int) (buffer : Nat) (size : Nat)
  | s_filesize (fd : Int)
  | s_seek (fd : Int) (position : Nat)
  | s_tell (fd : Int)
  deriving DecidableEq, Repr

/-- Runs the handler of one call; the result is the value it returns, as an
integer. -/
def FileCall.run {K : Type} (sv : Services K) : FileCall → M K Int
  | .s_open file => Pintos.s_open sv file
  | .s_close fd => Pintos.s_close sv fd
  | .s_create file initial_size => Pintos.s_create sv file initial_size
  | .s_remove file => do
    let b ← Pintos.s_remove sv file
    pure (if b then 1 else 0)
  | .s_read fd buffer size => Pintos.s_read sv fd buffer size
  | .s_write fd buffer size => Pintos.s_write sv fd buffer size
  | .s_filesize fd => Pintos.s_filesize sv fd
  | .s_seek fd position => Pintos.s_seek sv fd position
  | .s_tell fd => do
    let r ← Pintos.s_tell sv fd
    pure (r : Int)

/-- Runs a sequence of calls one after the other, as a process does, and collects
the values returned. -/
def run_calls {K : Type} (sv : Services K) : List FileCall → M K (List Int)
  | [] => pure []
  | c :: cs => do
    let r ← c.run sv
    let rs ← run_calls sv cs
    pure (r :: rs)

/-! ## The dispatch table, as the spec gives it -/

/-- The operation code of a handler. -/
def Handler.code : Handler → Nat
  | .s_halt => SYS_HALT
  | .s_exit => SYS_EXIT
  | .s_exec => SYS_EXEC
  | .s_wait => SYS_WAIT
  | .s_create => SYS_CREATE
  | .s_remove => SYS_REMOVE
  | .s_open => SYS_OPEN
  | .s_filesize => SYS_FILESIZE
  | .s_read => SYS_READ
  | .s_write => SYS_WRITE
  | .s_seek => SYS_SEEK
  | .s_tell => SYS_TELL
  | .s_close => SYS_CLOSE

/-- The argument count of an operation, from section 6 of the spec. -/
def Handler.argc : Handler → Nat
  | .s_halt => 0
  | .s_exit => 1
  | .s_exec => 1
  | .s_wait => 1
  | .s_create => 2
  | .s_remove => 1
  | .s_open => 1
  | .s_filesize => 1
  | .s_read => 3
  | .s_write => 3
  | .s_seek => 2
  | .s_tell => 1
  | .s_close => 1

/-- The handler `h` called on the argument words `args`, each converted to the type
of the parameter it is passed for. The result is the word that the return value is
as a `uint32_t`; the handlers without a return value give none. -/
def invoke {K : Type} (sv : Services K) (h : Handler) (args : List Nat) : M K (Option Nat) :=
  match h with
  | .s_halt => do
    s_halt
    pure none
  | .s_exit => do
    s_exit (toInt32 (args.getD 0 0))
    pure none
  | .s_exec => do
    let r ← s_exec sv (args.getD 0 0)
    pure (some (toU32 r))
  | .s_wait => do
    let r ← s_wait sv (toInt32 (args.getD 0 0))
    pure (some (toU32 r))
  | .s_create => do
    let r ← s_create sv (args.getD 0 0) (args.getD 1 0)
    pure (some (toU32 r))
  | .s_remove => do
    let r ← s_remove sv (args.getD 0 0)
    pure (some (if r then 1 else 0))
  | .s_open => do
    let r ← s_open sv (args.getD 0 0)
    pure (some (toU32 r))
  | .s_filesize => do
    let r ← s_filesize sv (toInt32 (args.getD 0 0))
    pure (some (toU32 r))
  | .s_read => do
    let r ← s_read sv (toInt32 (args.getD 0 0)) (args.getD 1 0) (args.getD 2 0)
    pure (some (toU32 r))
  | .s_write => do
    let r ← s_write sv (toInt32 (args.getD 0 0)) (args.getD 1 0) (args.getD 2 0)
    pure (some (toU32 r))
  | .s_seek => do
    let r ← s_seek sv (toInt32 (args.getD 0 0)) (args.getD 1 0)
    pure (some (toU32 r))
  | .s_tell => do
    let r ← s_tell sv (toInt32 (args.getD 0 0))
    pure (some r)
  | .s_close => do
    let r ← s_close sv (toInt32 (args.getD 0 0))
    pure (some (toU32 r))

/-- The words at `sp + 4`, ..., `sp + 4 * n`, in stack order. -/
def stack_args (m : Mem) (sp : Nat) (n : Nat) : List Nat :=
  (List.range n).map (fun i => load32 m (sp + 4 * (i + 1)))

/-- What the spec asks of the dispatcher for the operation `h`: the handler of `h`
runs once on the `argc` words above the stack pointer, and the value it returns
goes to `eax`. The exit operation receives its status in `eax` before it runs, as
line 86 of the source has it. -/
def dispatch_spec {K : Type} (sv : Services K) (h : Handler) : M K Unit := fun w =>
  let args := stack_args w.mem w.f.esp h.argc
  let w0 : World K := if h = Handler.s_exit then
    { w with f := { w.f with eax := args.getD 0 0 } } else w
  match invoke sv h args w0 with
  | .ret (some v) w1 => .ret () { w1 with f := { w1.f with eax := v } }
  | .ret none w1 => .ret () w1
  | .stop s w1 => .stop s w1

/-! ## A concrete kernel, to run the source on -/

/-- A small kernel: the state counts the files opened so far, `filesys_open`
always succeeds and hands out a new kernel address each time, reads and writes
transfer the whole span, the console delivers the letter A. -/
def demo : Services Nat where
  filesys_open := fun _ _ k => (3222274048 + 16 * k, k + 1)
  filesys_create := fun _ _ _ k => (true, k)
  filesys_remove := fun _ _ k => (true, k)
  file_read := fun _ _ size m k => ((size : Int), m, k)
  file_write := fun _ _ size _ k => ((size : Int), k)
  file_length := fun _ _ => 0
  file_seek := fun _ _ k => k
  file_tell := fun _ _ => 0
  file_close := fun _ k => k
  process_execute := fun _ _ k => (1, k)
  process_wait := fun _ k => (0, k)
  input_getc := fun k => (65, k)
  putbuf := fun _ _ _ k => k

/-- A freshly created process: empty descriptor table, next free slot 0, memory
all zero, stack pointer at 4096. -/
def fresh : World Nat where
  f := { esp := 4096, eax := 0 }
  t := { name := "main", files := fun _ => 0, fd := 0 }
  mem := fun _ => 0
  k := 0
  log := []

/-- The fresh process with the stack pointer at `sp` and the byte `b` stored
there. -/
def fresh_at (sp : Nat) (b : Nat) : World Nat :=
  { fresh with f := { esp := sp, eax := 0 }, mem := fun a => if a = sp then b else 0 }

/-- The fresh process after one successful `s_open`: slot 0 holds the first
capability of the kernel, handle 2. -/
def one_open : World Nat := (s_open demo 4096 fresh).world

/-- The kernel `demo` with a file system that cannot open any file. -/
def no_files : Services Nat :=
  { demo with filesys_open := fun _ _ k => (0, k) }

/-- The fresh process after three successful `s_open` calls: the handles 2, 3, 4
are in the slots 0, 1, 2. -/
def three_open : World Nat :=
  (run_calls demo [FileCall.s_open 4096, FileCall.s_open 4096, FileCall.s_open 4096] fresh).world

/-- The fresh process at the entry of an exit call: stack pointer 4096, the code 1
at the stack pointer and the status 7 in the word above it. -/
def exit_frame : World Nat :=
  { fresh with mem := fun a => if a = 4096 then 1 else if a = 4100 then 7 else 0 }

/-! ## The console and the notice of `s_exit`, as the spec describes them -/

/-- The text that `printf ("%s: exit(%d)\n", name, status)` prints; the event
`printf_exit name status` stands for this one line. -/
def exit_notice (name : String) (status : Int) : String :=
  name ++ ": exit(" ++ toString status ++ ")\n"

/-- The bytes that `n` calls of `input_getc` in a row deliver, from the kernel
state `k` on. -/
def console_bytes {K : Type} (sv : Services K) : Nat → K → List Nat
  | 0, _ => []
  | n + 1, k => (sv.input_getc k).1 :: console_bytes sv n (sv.input_getc k).2

/-- The kernel state after `n` calls of `input_getc` in a row. -/
def console_after {K : Type} (sv : Services K) : Nat → K → K
  | 0, k => k
  | n + 1, k => console_after sv n (sv.input_getc k).2

/-- Memory after the bytes `cs` are stored, as bytes, at `buf[i]`, `buf[i + 1]`,
... in this order. -/
def store_bytes (m : Mem) (buf : Nat) : Nat → List Nat → Mem
  | _, [] => m
  | i, c :: cs => store_bytes (Function.update m (ptr_add buf i) (c % 256)) buf (i + 1) cs

/-- The addresses that the loop of `parse_syscall_args` reads a word from, one per
`*++sp`, in the order of the reads. -/
def parse_reads : Nat → Nat → List Nat
  | 0, _ => []
  | n + 1, sp => ptr_add sp 4 :: parse_reads n (ptr_add sp 4)

/-! ## Lemmas on the sequencing of effects -/

@[simp] theorem bind_run {K α β : Type} (x : M K α) (g : α → M K β) (w : World K) :
    (x >>= g) w = match x w with
      | .ret a w1 => g a w1
      | .stop s w1 => .stop s w1 := rfl

@[simp] theorem pure_run {K α : Type} (a : α) (w : World K) :
    (pure a : M K α) w = .ret a w := rfl

@[simp] theorem emit_run {K : Type} (e : Event) (w : World K) :
    emit e w = .ret () { w with log := w.log ++ [e] } := rfl

@[simp] theorem s_exit_run {K : Type} (status : Int) (w : World K) :
    s_exit status w = .stop .exited { w with log := w.log ++
      [Event.call Handler.s_exit [status], Event.printf_exit w.t.name status,
        Event.thread_exit] } := by
  simp [s_exit, thread_name, thread_exit]

/-- C1. When the stack pointer or one of the three words that follow it lies at or
above `PHYS_BASE`, `syscall_handler` ends the process through `s_exit (-1)`: the
notice carries status -1, `thread_exit` follows, no other handler is entered, no
service is called, and the frame (with `eax`), the thread and memory are as they
were. -/
theorem C1_bad_frame_exits {K : Type} (sv : Services K) (w : World K)
    (h : ∃ i, i ≤ 3 ∧ PHYS_BASE ≤ w.f.esp + 4 * i) :
    syscall_handler sv w = Res.stop Stop.exited { w with log := w.log ++
      [Event.call Handler.s_exit [-1], Event.printf_exit w.t.name (-1),
        Event.thread_exit] } := by
  obtain ⟨i, hi, hb⟩ := h
  by_cases h0 : w.f.esp < PHYS_BASE
  · have hbad : (PHYS_BASE ≤ ptr_add w.f.esp 4 ∨ PHYS_BASE ≤ ptr_add w.f.esp 8)
        ∨ PHYS_BASE ≤ ptr_add w.f.esp 12 := by
      unfold ptr_add PHYS_BASE at *
      omega
    have h0n : ¬ PHYS_BASE ≤ w.f.esp := not_le.mpr h0
    simp [syscall_handler, get_esp, is_user_vaddr, h0n, hbad]
  · have h0n : PHYS_BASE ≤ w.f.esp := not_lt.mp h0
    simp [syscall_handler, get_esp, is_user_vaddr, h0n]

/-- Witness of C1: the frame whose stack pointer is `PHYS_BASE` itself. -/
theorem C1_bad_frame_exits_witness :
    syscall_handler demo (fresh_at 3221225472 1) = Res.stop Stop.exited
      { fresh_at 3221225472 1 with log := (fresh_at 3221225472 1).log ++
        [Event.call Handler.s_exit [-1],
          Event.printf_exit (fresh_at 3221225472 1).t.name (-1), Event.thread_exit] } :=
  C1_bad_frame_exits demo (fresh_at 3221225472 1) ⟨0, by decide, by decide⟩

/-- C2, at the failing input. With `buffer = 16` and `size = 4294967288` the sum
wraps to 8, both tests of the buffer check succeed, `s_write` hands the span to
`putbuf` and `s_read` hands it to `file_read`; yet byte 3221225456 of the span is
the address `PHYS_BASE`. -/
theorem C2_wrapped_span_passes_check :
    new_events fresh (s_write demo 1 16 4294967288 fresh)
        = [Event.call Handler.s_write [1, 16, 4294967288], Event.putbuf 16 4294967288]
      ∧ new_events fresh ((s_open demo 4096 >>= fun h => s_read demo h 16 4294967288) fresh)
        = [Event.call Handler.s_open [4096], Event.filesys_open 4096,
            Event.call Handler.s_read [2, 16, 4294967288],
            Event.file_read 3222274048 16 4294967288]
      ∧ 3221225456 < 4294967288 ∧ PHYS_BASE ≤ ptr_add 16 3221225456 := by
  refine ⟨?_, ?_, by decide, by decide⟩
  · decide
  · decide

@[simp] theorem service_run {K α : Type} (e : Event) (g : Mem → K → α × K) (w : World K) :
    service e g w = .ret (g w.mem w.k).1
      { w with k := (g w.mem w.k).2, log := w.log ++ [e] } := rfl

@[simp] theorem thread_current_run {K : Type} (w : World K) :
    (thread_current : M K thread) w = .ret w.t w := rfl

@[simp] theorem set_fd_run {K : Type} (v : Int) (w : World K) :
    set_fd v w = .ret () { w with t := { w.t with fd := v } } := rfl

@[simp] theorem set_files_run {K : Type} (i : Int) (p : Nat) (w : World K) :
    set_files i p w
      = .ret () { w with t := { w.t with files := Function.update w.t.files i p } } := rfl

@[simp] theorem set_eax_run {K : Type} (v : Nat) (w : World K) :
    set_eax v w = .ret () { w with f := { w.f with eax := v } } := rfl

@[simp] theorem fall_off_run {K α : Type} (w : World K) :
    (fall_off : M K α) w = .stop .undefined_value w := rfl

/-- C3. Whatever the argument, every call of the file system or of the process
manager that `s_open`, `s_create`, `s_remove` and `s_exec` make is the call of
their own service on the address they were given, and that address is then
non-null and below `PHYS_BASE`; so for a null address or one at or above the
boundary no service is called. -/
theorem C3_services_get_checked_address {K : Type} (sv : Services K) (w : World K)
    (a size : Nat) :
    (∀ e ∈ new_events w (s_open sv a w), e.isService = true →
        e = Event.filesys_open a ∧ a ≠ 0 ∧ a < PHYS_BASE)
    ∧ (∀ e ∈ new_events w (s_create sv a size w), e.isService = true →
        e = Event.filesys_create a size ∧ a ≠ 0 ∧ a < PHYS_BASE)
    ∧ (∀ e ∈ new_events w (s_remove sv a w), e.isService = true →
        e = Event.filesys_remove a ∧ a ≠ 0 ∧ a < PHYS_BASE)
    ∧ (∀ e ∈ new_events w (s_exec sv a w), e.isService = true →
        e = Event.process_execute a ∧ a ≠ 0 ∧ a < PHYS_BASE) := by
  by_cases h0 : a = 0
  · subst h0
    simp [s_open, s_create, s_remove, s_exec, is_user_vaddr, new_events, Res.world,
      Event.isService]
  · by_cases hb : a < PHYS_BASE
    · have hbn : ¬ PHYS_BASE ≤ a := not_le.mpr hb
      refine ⟨?_, ?_, ?_, ?_⟩
      · by_cases hc : (sv.filesys_open a w.mem w.k).1 = 0 <;>
          simp [s_open, is_user_vaddr, new_events, Res.world, Event.isService, h0, hb, hbn, hc]
      · simp [s_create, is_user_vaddr, new_events, Res.world, Event.isService, h0, hb, hbn]
      · simp [s_remove, is_user_vaddr, new_events, Res.world, Event.isService, h0, hb, hbn]
      · simp [s_exec, is_user_vaddr, new_events, Res.world, Event.isService, h0, hb, hbn]
    · have hbn : PHYS_BASE ≤ a := not_lt.mp hb
      simp [s_open, s_create, s_remove, s_exec, is_user_vaddr, new_events, Res.world,
        Event.isService, h0, hbn]

/-- C4, at the failing input. The frame at 4096 is valid and the word at the stack
pointer is 13, which is none of the thirteen operation codes but not above
`SYS_INUMBER`: the range test lets it through, the `switch` takes its default
case, and the process ends with status 0, the initial value of `first_arg`, not
with status -1. -/
theorem C4_code_13_exits_with_status_0 :
    load32 (fresh_at 4096 13).mem (fresh_at 4096 13).f.esp = 13
      ∧ (∀ h : Handler, h.code ≠ 13)
      ∧ (fresh_at 4096 13).f.esp + 12 < PHYS_BASE
      ∧ (syscall_handler demo (fresh_at 4096 13)).stopped = some Stop.exited
      ∧ new_events (fresh_at 4096 13) (syscall_handler demo (fresh_at 4096 13))
        = [Event.call Handler.s_exit [0], Event.printf_exit "main" 0, Event.thread_exit] := by
  refine ⟨by decide, ?_, by decide, by decide, by decide⟩
  intro h
  cases h <;> decide

theorem ptr_add_small (p n : Nat) (h : p + n < 4294967296) : ptr_add p n = p + n := by
  unfold ptr_add
  exact Nat.mod_eq_of_lt h

/-- On a frame that passed the validation, `parse_syscall_args` returns the words
above the stack pointer, and its final test does not fire. -/
theorem parse_syscall_args_valid {K : Type} (w : World K) (sp n : Nat) (hn : n ≤ 3)
    (hsp : sp + 12 < PHYS_BASE) :
    parse_syscall_args sp n w = .ret (stack_args w.mem sp n) w := by
  have h4 : ptr_add sp 4 = sp + 4 := ptr_add_small _ _ (by unfold PHYS_BASE at hsp; omega)
  have h8 : ptr_add (sp + 4) 4 = sp + 8 :=
    ptr_add_small _ _ (by unfold PHYS_BASE at hsp; omega)
  have h12 : ptr_add (sp + 8) 4 = sp + 12 :=
    ptr_add_small _ _ (by unfold PHYS_BASE at hsp; omega)
  have b0 : ¬ PHYS_BASE ≤ sp := by omega
  have b4 : ¬ PHYS_BASE ≤ sp + 4 := by omega
  have b8 : ¬ PHYS_BASE ≤ sp + 8 := by omega
  have b12 : ¬ PHYS_BASE ≤ sp + 12 := by omega
  interval_cases n
  · simp [parse_syscall_args, parse_loop, stack_args, b0]
  · simp [parse_syscall_args, parse_loop, stack_args, h4, b4, List.range_succ]
  · simp [parse_syscall_args, parse_loop, stack_args, h4, h8, b8, List.range_succ]
  · simp [parse_syscall_args, parse_loop, stack_args, h4, h8, h12, b12, List.range_succ]

/-- C5. On a frame that passed the validation and whose word at the stack pointer
is the operation code of `h`, `syscall_handler` does what the dispatch table asks:
it runs the handler of `h`, once, on the `argc h` words at `sp + 1`, ..., `sp + n`
in stack order, and when the handler returns it stores the value in `eax`. -/
theorem C5_dispatch_runs_the_handler {K : Type} (sv : Services K) (w : World K)
    (h : Handler) (hframe : ∀ i, i ≤ 3 → w.f.esp + 4 * i < PHYS_BASE)
    (hcode : load32 w.mem w.f.esp = h.code) :
    syscall_handler sv w = dispatch_spec sv h w := by
  have hsp : w.f.esp + 12 < PHYS_BASE := hframe 3 (le_refl 3)
  have h4 : ptr_add w.f.esp 4 = w.f.esp + 4 :=
    ptr_add_small _ _ (by unfold PHYS_BASE at hsp; omega)
  have h8 : ptr_add w.f.esp 8 = w.f.esp + 8 :=
    ptr_add_small _ _ (by unfold PHYS_BASE at hsp; omega)
  have h12 : ptr_add w.f.esp 12 = w.f.esp + 12 :=
    ptr_add_small _ _ (by unfold PHYS_BASE at hsp; omega)
  have b0 : ¬ PHYS_BASE ≤ w.f.esp := by omega
  have b4 : ¬ PHYS_BASE ≤ w.f.esp + 4 := by omega
  have b8 : ¬ PHYS_BASE ≤ w.f.esp + 8 := by omega
  have b12 : ¬ PHYS_BASE ≤ w.f.esp + 12 := by omega
  have p1 := parse_syscall_args_valid w w.f.esp 1 (by decide) hsp
  have p2 := parse_syscall_args_valid w w.f.esp 2 (by decide) hsp
  have p3 := parse_syscall_args_valid w w.f.esp 3 (by decide) hsp
  cases h <;>
    simp [syscall_handler, dispatch_spec, invoke, get_esp, read32, is_user_vaddr, Handler.code,
      Handler.argc, SYS_HALT, SYS_EXIT, SYS_EXEC, SYS_WAIT, SYS_CREATE, SYS_REMOVE, SYS_OPEN,
      SYS_FILESIZE, SYS_READ, SYS_WRITE, SYS_SEEK, SYS_TELL, SYS_CLOSE, SYS_INUMBER,
      s_halt, shutdown_power_off, h4, h8, h12, b0, b4, b8, b12, p1, p2, p3, hcode] <;>
    split <;> simp only [*]

/-- Witness of C5: the open call, code 6, on the frame at 4096. -/
theorem C5_dispatch_runs_the_handler_witness :
    syscall_handler demo (fresh_at 4096 6) = dispatch_spec demo Handler.s_open (fresh_at 4096 6) :=
  C5_dispatch_runs_the_handler demo (fresh_at 4096 6) Handler.s_open (by decide) (by decide)

/-- Counterexample to C6 as stated. With the buffer, or the path, at `PHYS_BASE`
itself, `s_read`, `s_write` and `s_create` do not end the process: each returns
-1 to its caller. -/
theorem C6_bad_pointer_returns :
    (s_read demo 0 3221225472 0 fresh).stopped = none
      ∧ (s_read demo 0 3221225472 0 fresh).value = some (-1)
      ∧ (s_write demo 1 3221225472 0 fresh).stopped = none
      ∧ (s_write demo 1 3221225472 0 fresh).value = some (-1)
      ∧ (s_create demo 3221225472 0 fresh).stopped = none
      ∧ (s_create demo 3221225472 0 fresh).value = some (-1) := by
  decide

/-- C6, amended. For a buffer address at or above `PHYS_BASE`, `s_read` and
`s_write` return -1 to the caller, and so does `s_create` for a path address at or
above `PHYS_BASE`: the process goes on, nothing but the entry into the handler is
logged (no `thread_exit`, no service call), and the frame, the descriptor table,
memory and the kernel state are as before. -/
theorem C6_bad_pointer_returns_minus_one {K : Type} (sv : Services K) (w : World K)
    (fd : Int) (a size : Nat) (ha : PHYS_BASE ≤ a) :
    s_read sv fd a size w = Res.ret (-1)
        { w with log := w.log ++ [Event.call Handler.s_read [fd, (a : Int), (size : Int)]] }
      ∧ s_write sv fd a size w = Res.ret (-1)
        { w with log := w.log ++ [Event.call Handler.s_write [fd, (a : Int), (size : Int)]] }
      ∧ s_create sv a size w = Res.ret (-1)
        { w with log := w.log ++ [Event.call Handler.s_create [(a : Int), (size : Int)]] } := by
  simp [s_read, s_write, s_create, is_user_vaddr, ha]

/-- Witness of the amended C6: the address `PHYS_BASE`, handle 2, length 7. -/
theorem C6_bad_pointer_returns_minus_one_witness :
    s_read demo 2 3221225472 7 fresh = Res.ret (-1)
        { fresh with log := fresh.log ++ [Event.call Handler.s_read [2, 3221225472, 7]] }
      ∧ s_write demo 2 3221225472 7 fresh = Res.ret (-1)
        { fresh with log := fresh.log ++ [Event.call Handler.s_write [2, 3221225472, 7]] }
      ∧ s_create demo 3221225472 7 fresh = Res.ret (-1)
        { fresh with log := fresh.log ++ [Event.call Handler.s_create [3221225472, 7]] } :=
  C6_bad_pointer_returns_minus_one demo fresh 2 3221225472 7 (by decide)

/-- C8, at the failing input. In the fresh process, `s_remove` of the path at 4096
followed by `s_open` of the same path: the remove leaves the next-free-slot counter
at -2, and the open, which succeeds, returns the handle 0. -/
theorem C8_open_after_remove_returns_0 :
    ((s_remove demo 4096 fresh).world.t.fd = -2)
      ∧ (run_calls demo [FileCall.s_remove 4096, FileCall.s_open 4096] fresh).value
        = some [0, 0]
      ∧ (run_calls demo [FileCall.s_remove 4096, FileCall.s_open 4096] fresh).world.t.files (-2)
        = 3222274048 := by
  decide

/-- C9, at the failing input. In the fresh process: two opens return the handles 2
and 3, a remove follows, and the third open returns the handle 2 again, though
handle 2 was never closed, and puts its own capability in slot 0 in place of the
one the first open had stored there. -/
theorem C9_live_handle_2_is_reused :
    (run_calls demo [FileCall.s_open 4096, FileCall.s_open 4096, FileCall.s_remove 4096,
        FileCall.s_open 4096] fresh).value = some [2, 3, 0, 2]
      ∧ (run_calls demo [FileCall.s_open 4096, FileCall.s_open 4096] fresh).world.t.files 0
        = 3222274048
      ∧ (run_calls demo [FileCall.s_open 4096, FileCall.s_open 4096, FileCall.s_remove 4096,
        FileCall.s_open 4096] fresh).world.t.files 0 = 3222274080 := by
  refine ⟨?_, ?_, ?_⟩ <;>
    simp [run_calls, FileCall.run, s_open, s_remove, is_user_vaddr, PHYS_BASE, demo, fresh,
      Res.value, Res.world, Function.update, wrap_int, toU32, toInt32]

/-- C10. For a span that passes the buffer check and a handle `h` of 2 or more: when
slot `h - 2` holds the capability `c`, `s_read` calls `file_read` on `c` with the
same buffer and length and returns its byte count, and `s_write` does the same with
`file_write`; when slot `h - 2` is empty both return -1 and log nothing but their
own entry, so the file system is not called. -/
theorem C10_file_handles_forward {K : Type} (sv : Services K) (w : World K) (h : Int)
    (buf len : Nat) (hbuf : buf < PHYS_BASE) (hend : ptr_add buf len < PHYS_BASE)
    (hh : 2 ≤ h) :
    (∀ c, w.t.files (h - 2) = c → c ≠ 0 →
        (s_read sv h buf len w).value = some (sv.file_read c buf len w.mem w.k).1
        ∧ new_events w (s_read sv h buf len w)
          = [Event.call Handler.s_read [h, (buf : Int), (len : Int)], Event.file_read c buf len]
        ∧ (s_write sv h buf len w).value = some (sv.file_write c buf len w.mem w.k).1
        ∧ new_events w (s_write sv h buf len w)
          = [Event.call Handler.s_write [h, (buf : Int), (len : Int)],
              Event.file_write c buf len])
      ∧ (w.t.files (h - 2) = 0 →
        s_read sv h buf len w = Res.ret (-1)
            { w with log := w.log ++ [Event.call Handler.s_read [h, (buf : Int), (len : Int)]] }
        ∧ s_write sv h buf len w = Res.ret (-1)
            { w with log := w.log
                ++ [Event.call Handler.s_write [h, (buf : Int), (len : Int)]] }) := by
  have hbn : ¬ PHYS_BASE ≤ buf := not_le.mpr hbuf
  have hen : ¬ PHYS_BASE ≤ ptr_add buf len := not_le.mpr hend
  have h1 : ¬ h = 1 := by omega
  have h0 : ¬ h = 0 := by omega
  have hgt : 1 < h := by omega
  constructor
  · intro c hc hne
    subst hc
    simp [s_read, s_write, file_read, is_user_vaddr, hbn, hen, h1, h0, hgt, hne, Res.value,
      new_events, Res.world]
  · intro hc
    simp [s_read, s_write, is_user_vaddr, hbn, hen, h1, h0, hgt, hc]

/-- Witness of C10: handle 2 after one open, buffer at 8192, length 8. -/
theorem C10_file_handles_forward_witness :
    (s_read demo 2 8192 8 one_open).value = some 8
      ∧ new_events one_open (s_read demo 2 8192 8 one_open)
        = [Event.call Handler.s_read [2, 8192, 8], Event.file_read 3222274048 8192 8]
      ∧ (s_write demo 2 8192 8 one_open).value = some 8
      ∧ new_events one_open (s_write demo 2 8192 8 one_open)
        = [Event.call Handler.s_write [2, 8192, 8], Event.file_write 3222274048 8192 8] :=
  (C10_file_handles_forward demo one_open 2 8192 8 (by decide) (by decide) (by decide)).1
    3222274048 (by decide) (by decide)

/-- C11, at the failing input. After one successful `s_open` the capability
3222274048 is in slot 0 and its handle is 2; `s_filesize`, `s_tell` and `s_seek`
look at `files[2]`, which is empty, and answer -1 (4294967295 as `unsigned`)
without a call of the file system. -/
theorem C11_handle_2_is_not_found :
    (s_open demo 4096 fresh).value = some 2
      ∧ one_open.t.files 0 = 3222274048
      ∧ (s_filesize demo 2 one_open).value = some (-1)
      ∧ new_events one_open (s_filesize demo 2 one_open) = [Event.call Handler.s_filesize [2]]
      ∧ (s_tell demo 2 one_open).value = some 4294967295
      ∧ new_events one_open (s_tell demo 2 one_open) = [Event.call Handler.s_tell [2]]
      ∧ (s_seek demo 2 5 one_open).value = some (-1)
      ∧ new_events one_open (s_seek demo 2 5 one_open) = [Event.call Handler.s_seek [2, 5]] := by
  decide

/-- C12, at the failing inputs. After one open, `s_close` of handle 2 looks at
`files[2]`, finds it empty and returns 0: `file_close` is not called, slot 0 keeps
its capability, and a later `s_read` of handle 2 still reaches `file_read`. After
three opens, `s_close` of handle 2 finds the capability of handle 4 in `files[2]`,
calls `file_close` on the number 2 itself and leaves every slot as it was. -/
theorem C12_close_misses_the_capability :
    (s_close demo 2 one_open).value = some 0
      ∧ new_events one_open (s_close demo 2 one_open) = [Event.call Handler.s_close [2]]
      ∧ (s_close demo 2 one_open).world.t.files 0 = 3222274048
      ∧ new_events one_open
          (run_calls demo [FileCall.s_close 2, FileCall.s_read 2 8192 8] one_open)
        = [Event.call Handler.s_close [2], Event.call Handler.s_read [2, 8192, 8],
            Event.file_read 3222274048 8192 8]
      ∧ three_open.t.files 0 = 3222274048
      ∧ three_open.t.files 2 = 3222274080
      ∧ (s_close demo 2 three_open).value = some 1
      ∧ new_events three_open (s_close demo 2 three_open)
        = [Event.call Handler.s_close [2], Event.file_close 2]
      ∧ (s_close demo 2 three_open).world.t.files 0 = 3222274048
      ∧ (s_close demo 2 three_open).world.t.files 2 = 3222274080 := by
  refine ⟨?_, ?_, ?_, ?_, ?_, ?_, ?_, ?_, ?_, ?_⟩ <;>
    simp [one_open, three_open, run_calls, FileCall.run, s_open, s_close, s_read, file_read,
      is_user_vaddr, PHYS_BASE, ptr_add, toU32, demo, fresh, Res.value, Res.world, new_events,
      Function.update, wrap_int, toInt32]

/-- C13, at the failing input. In the fresh process `s_remove` of the path at 4096
returns with the next-free-slot counter at -2, where it was 0 before. -/
theorem C13_remove_moves_the_counter :
    fresh.t.fd = 0
      ∧ (s_remove demo 4096 fresh).stopped = none
      ∧ (s_remove demo 4096 fresh).world.t.fd = -2 := by
  decide

/-- C14, at the failing input. The file system removes the file at 4096 and
answers true; `s_remove` returns false. `s_create` on the same path returns the
answer of `filesys_create`. -/
theorem C14_remove_returns_false :
    (demo.filesys_remove 4096 fresh.mem fresh.k).1 = true
      ∧ new_events fresh (s_remove demo 4096 fresh)
        = [Event.call Handler.s_remove [4096], Event.filesys_remove 4096]
      ∧ (s_remove demo 4096 fresh).value = some false
      ∧ (demo.filesys_create 4096 10 fresh.mem fresh.k).1 = true
      ∧ (s_create demo 4096 10 fresh).value = some 1 := by
  decide

/-- Counterexample to C15 as stated. With the path at `PHYS_BASE` itself `s_open`
does not return -1: it returns nothing, the process is ended through
`s_exit (-1)`. -/
theorem C15_open_above_boundary_exits :
    (s_open demo 3221225472 fresh).value = none
      ∧ (s_open demo 3221225472 fresh).stopped = some Stop.exited
      ∧ new_events fresh (s_open demo 3221225472 fresh)
        = [Event.call Handler.s_open [3221225472], Event.call Handler.s_exit [-1],
            Event.printf_exit "main" (-1), Event.thread_exit] := by
  decide

/-- C15, amended. `s_open` returns -1 to its caller, the process going on and the
next-free-slot counter unchanged, when the path is null and when the file system
fails to open it; when the path address is at or above `PHYS_BASE` the process is
ended with status -1, the file system is not called and the counter is
unchanged. -/
theorem C15_open_failures {K : Type} (sv : Services K) (w : World K) (file : Nat) :
    (file = 0 →
        s_open sv file w = Res.ret (-1)
          { w with log := w.log ++ [Event.call Handler.s_open [(file : Int)]] })
      ∧ (PHYS_BASE ≤ file →
        s_open sv file w = Res.stop Stop.exited
          { w with log := w.log ++ [Event.call Handler.s_open [(file : Int)],
              Event.call Handler.s_exit [-1], Event.printf_exit w.t.name (-1),
              Event.thread_exit] })
      ∧ (file ≠ 0 → file < PHYS_BASE → (sv.filesys_open file w.mem w.k).1 = 0 →
        (s_open sv file w).value = some (-1)
          ∧ (s_open sv file w).stopped = none
          ∧ (s_open sv file w).world.t.fd = w.t.fd) := by
  refine ⟨?_, ?_, ?_⟩
  · intro h0
    simp [s_open, h0]
  · intro hb
    have h0 : file ≠ 0 := by
      unfold PHYS_BASE at hb
      omega
    simp [s_open, is_user_vaddr, h0, hb]
  · intro h0 hb hfail
    have hbn : ¬ PHYS_BASE ≤ file := not_le.mpr hb
    simp [s_open, is_user_vaddr, h0, hbn, hfail, Res.value, Res.stopped, Res.world]

/-- Witness of the amended C15: the null path, the path at `PHYS_BASE`, and the
path at 4096 on a file system that opens nothing. -/
theorem C15_open_failures_witness :
    s_open demo 0 fresh = Res.ret (-1)
        { fresh with log := fresh.log ++ [Event.call Handler.s_open [((0 : Nat) : Int)]] }
      ∧ s_open demo 3221225472 fresh = Res.stop Stop.exited
        { fresh with log := fresh.log ++ [Event.call Handler.s_open [((3221225472 : Nat) : Int)],
            Event.call Handler.s_exit [-1], Event.printf_exit fresh.t.name (-1),
            Event.thread_exit] }
      ∧ ((s_open no_files 4096 fresh).value = some (-1)
        ∧ (s_open no_files 4096 fresh).stopped = none
        ∧ (s_open no_files 4096 fresh).world.t.fd = fresh.t.fd) :=
  ⟨(C15_open_failures demo fresh 0).1 rfl,
    (C15_open_failures demo fresh 3221225472).2.1 (by decide),
    (C15_open_failures no_files fresh 4096).2.2 (by decide) (by decide) (by decide)⟩

/-! ## The console loop of `s_read` -/

theorem console_bytes_length {K : Type} (sv : Services K) (n : Nat) (k : K) :
    (console_bytes sv n k).length = n := by
  induction n generalizing k with
  | zero => rfl
  | succ n ih => simp [console_bytes, ih]

/-- The loop of `s_read` returns after `n` more iterations: it has called
`input_getc` `n` times and stored the bytes one after the other from `buf[i]` on. -/
theorem getc_loop_run {K : Type} (sv : Services K) (buf n i : Nat) (w : World K) :
    getc_loop sv buf n i w = Res.ret (i + n)
      { w with mem := store_bytes w.mem buf i (console_bytes sv n w.k),
               k := console_after sv n w.k,
               log := w.log ++ List.replicate n Event.input_getc } := by
  induction n generalizing i w with
  | zero => simp [getc_loop, store_bytes, console_bytes, console_after]
  | succ n ih =>
    simp [getc_loop, store8, ih, store_bytes, console_bytes, console_after,
      List.replicate_succ]
    omega

theorem store_bytes_outside (m : Mem) (buf : Nat) (cs : List Nat) (i a : Nat)
    (h : ∀ j, j < cs.length → a ≠ ptr_add buf (i + j)) :
    store_bytes m buf i cs a = m a := by
  induction cs generalizing m i with
  | nil => rfl
  | cons c cs ih =>
    have h0 : a ≠ ptr_add buf i := by
      have := h 0 (by simp)
      simpa using this
    rw [store_bytes, ih]
    · simp [Function.update, h0]
    · intro j hj
      have := h (j + 1) (by simpa using hj)
      rwa [show i + 1 + j = i + (j + 1) by omega]

theorem store_bytes_at (m : Mem) (buf : Nat) (cs : List Nat) (i j : Nat)
    (hlen : i + cs.length ≤ 4294967296) (hj : j < cs.length) :
    store_bytes m buf i cs (ptr_add buf (i + j)) = cs.getD j 0 % 256 := by
  induction cs generalizing m i j with
  | nil => simp at hj
  | cons c cs ih =>
    simp only [List.length_cons] at hlen hj
    cases j with
    | zero =>
      rw [store_bytes, store_bytes_outside]
      · simp
      · intro j2 _
        unfold ptr_add
        omega
    | succ j =>
      rw [store_bytes, show i + (j + 1) = i + 1 + j by omega, ih _ _ _ (by omega) (by omega)]
      simp

/-- What `s_read` does on handle 0 for a span that passes the buffer check. -/
theorem s_read_console_run {K : Type} (sv : Services K) (w : World K) (buf len : Nat)
    (hbuf : buf < PHYS_BASE) (hend : ptr_add buf len < PHYS_BASE) :
    s_read sv 0 buf len w = Res.ret (toInt32 len)
      { w with mem := store_bytes w.mem buf 0 (console_bytes sv len w.k),
               k := console_after sv len w.k,
               log := w.log ++ Event.call Handler.s_read [0, (buf : Int), (len : Int)]
                 :: List.replicate len Event.input_getc } := by
  have hbn : ¬ PHYS_BASE ≤ buf := not_le.mpr hbuf
  have hen : ¬ PHYS_BASE ≤ ptr_add buf len := not_le.mpr hend
  simp [s_read, is_user_vaddr, hbn, hen, getc_loop_run]

theorem toInt32_small (n : Nat) (h : n < 2147483648) : toInt32 n = (n : Int) := by
  have hm : n % 4294967296 = n := Nat.mod_eq_of_lt (by omega)
  simp [toInt32, hm, h]

/-- Counterexample to C16 as stated. The span of 2147483648 bytes at address 4096
passes the buffer check, and `s_read` on handle 0 returns -2147483648, the `int`
that the `unsigned` count converts to, not the length. -/
theorem C16_console_read_count_is_an_int :
    (4096 < PHYS_BASE ∧ ptr_add 4096 2147483648 < PHYS_BASE)
      ∧ (s_read demo 0 4096 2147483648 fresh).value = some (-2147483648) := by
  refine ⟨by decide, ?_⟩
  rw [s_read_console_run demo fresh 4096 2147483648 (by decide) (by decide)]
  decide

/-- C16, amended. For a span that passes the buffer check, `s_read` on handle 0
returns after exactly `len` calls of `input_getc` and no other call; byte `i` of
the console is then at `buf[i]` for every `i < len`, every address outside the
span holds what it held before, and the value returned is `len` converted to
`int`, which is `len` itself when `len < 2 ^ 31`. On handle 1 `s_read` returns -1
and logs nothing but its own entry. Addresses are taken modulo `2 ^ 32`. -/
theorem C16_console_read {K : Type} (sv : Services K) (w : World K) (buf len : Nat)
    (hbuf : buf < PHYS_BASE) (hend : ptr_add buf len < PHYS_BASE)
    (hlen : len < 4294967296) :
    (s_read sv 0 buf len w).value = some (toInt32 len)
      ∧ (len < 2147483648 → (s_read sv 0 buf len w).value = some (len : Int))
      ∧ new_events w (s_read sv 0 buf len w)
        = Event.call Handler.s_read [0, (buf : Int), (len : Int)]
          :: List.replicate len Event.input_getc
      ∧ (∀ i, i < len → (s_read sv 0 buf len w).world.mem (ptr_add buf i)
          = (console_bytes sv len w.k).getD i 0 % 256)
      ∧ (∀ a, (∀ i, i < len → a ≠ ptr_add buf i) →
          (s_read sv 0 buf len w).world.mem a = w.mem a)
      ∧ s_read sv 1 buf len w = Res.ret (-1)
          { w with log := w.log ++ [Event.call Handler.s_read [1, (buf : Int), (len : Int)]] } := by
  have hbn : ¬ PHYS_BASE ≤ buf := not_le.mpr hbuf
  have hen : ¬ PHYS_BASE ≤ ptr_add buf len := not_le.mpr hend
  rw [s_read_console_run sv w buf len hbuf hend]
  refine ⟨rfl, ?_, ?_, ?_, ?_, ?_⟩
  · intro hsmall
    simp [Res.value, toInt32_small len hsmall]
  · simp [new_events, Res.world]
  · intro i hi
    have h := store_bytes_at w.mem buf (console_bytes sv len w.k) 0 i
      (by rw [console_bytes_length]; omega) (by rw [console_bytes_length]; exact hi)
    simpa [Res.world] using h
  · intro a ha
    have h := store_bytes_outside w.mem buf (console_bytes sv len w.k) 0 a
      (by
        intro j hj
        rw [console_bytes_length] at hj
        simpa using ha j hj)
    simpa [Res.world] using h
  · simp [s_read, is_user_vaddr, hbn, hen]

/-- Witness of the amended C16: three bytes read to 8192 in the fresh process. -/
theorem C16_console_read_witness :
    (s_read demo 0 8192 3 fresh).value = some (toInt32 3)
      ∧ (3 < 2147483648 → (s_read demo 0 8192 3 fresh).value = some ((3 : Nat) : Int))
      ∧ new_events fresh (s_read demo 0 8192 3 fresh)
        = Event.call Handler.s_read [0, ((8192 : Nat) : Int), ((3 : Nat) : Int)]
          :: List.replicate 3 Event.input_getc
      ∧ (∀ i, i < 3 → (s_read demo 0 8192 3 fresh).world.mem (ptr_add 8192 i)
          = (console_bytes demo 3 fresh.k).getD i 0 % 256)
      ∧ (∀ a, (∀ i, i < 3 → a ≠ ptr_add 8192 i) →
          (s_read demo 0 8192 3 fresh).world.mem a = fresh.mem a)
      ∧ s_read demo 1 8192 3 fresh = Res.ret (-1)
          { fresh with log := fresh.log
              ++ [Event.call Handler.s_read [1, ((8192 : Nat) : Int), ((3 : Nat) : Int)]] } :=
  C16_console_read demo fresh 8192 3 (by decide) (by decide) (by decide)

/-- Counterexample to C17 as stated. The span of 2147483648 bytes at address 4096
passes the buffer check; `s_write` on handle 1 hands it to `putbuf` and returns
-2147483648, the `int` that the `unsigned` size converts to, not the length. -/
theorem C17_console_write_count_is_an_int :
    (4096 < PHYS_BASE ∧ ptr_add 4096 2147483648 < PHYS_BASE)
      ∧ new_events fresh (s_write demo 1 4096 2147483648 fresh)
        = [Event.call Handler.s_write [1, 4096, 2147483648], Event.putbuf 4096 2147483648]
      ∧ (s_write demo 1 4096 2147483648 fresh).value = some (-2147483648) := by
  decide

/-- C17, amended. For a span that passes the buffer check, `s_write` on handle 1
makes exactly one call of `putbuf`, with the arguments `(buf, len)`, and no other
call, and returns `len` converted to `int`, which is `len` itself when
`len < 2 ^ 31`. On handle 0 `s_write` returns -1 and logs nothing but its own
entry. -/
theorem C17_console_write {K : Type} (sv : Services K) (w : World K) (buf len : Nat)
    (hbuf : buf < PHYS_BASE) (hend : ptr_add buf len < PHYS_BASE) :
    new_events w (s_write sv 1 buf len w)
        = [Event.call Handler.s_write [1, (buf : Int), (len : Int)], Event.putbuf buf len]
      ∧ (s_write sv 1 buf len w).value = some (toInt32 len)
      ∧ (len < 2147483648 → (s_write sv 1 buf len w).value = some (len : Int))
      ∧ s_write sv 0 buf len w = Res.ret (-1)
          { w with log := w.log ++ [Event.call Handler.s_write [0, (buf : Int), (len : Int)]] } := by
  have hbn : ¬ PHYS_BASE ≤ buf := not_le.mpr hbuf
  have hen : ¬ PHYS_BASE ≤ ptr_add buf len := not_le.mpr hend
  refine ⟨?_, ?_, ?_, ?_⟩
  · simp [s_write, is_user_vaddr, hbn, hen, new_events, Res.world]
  · simp [s_write, is_user_vaddr, hbn, hen, Res.value]
  · intro hsmall
    simp [s_write, is_user_vaddr, hbn, hen, Res.value, toInt32_small len hsmall]
  · simp [s_write, is_user_vaddr, hbn, hen]

/-- Witness of the amended C17: two bytes at 8192 in the fresh process. -/
theorem C17_console_write_witness :
    new_events fresh (s_write demo 1 8192 2 fresh)
        = [Event.call Handler.s_write [1, ((8192 : Nat) : Int), ((2 : Nat) : Int)],
            Event.putbuf 8192 2]
      ∧ (s_write demo 1 8192 2 fresh).value = some (toInt32 2)
      ∧ (2 < 2147483648 → (s_write demo 1 8192 2 fresh).value = some ((2 : Nat) : Int))
      ∧ s_write demo 0 8192 2 fresh = Res.ret (-1)
          { fresh with log := fresh.log
              ++ [Event.call Handler.s_write [0, ((8192 : Nat) : Int), ((2 : Nat) : Int)]] } :=
  C17_console_write demo fresh 8192 2 (by decide) (by decide)

/-- C18. `s_exit s` makes one `printf` call, the notice with the name of the
current thread and `s`, then `thread_exit`, and does not return. On a frame that
passed the validation and holds the code of exit, `syscall_handler` ends the
process through `s_exit` with the word above the stack pointer, read as an `int`,
as status; that word is in `eax`. -/
theorem C18_exit_notice_and_dispatch {K : Type} (sv : Services K) (w : World K) (s : Int)
    (hframe : ∀ i, i ≤ 3 → w.f.esp + 4 * i < PHYS_BASE)
    (hcode : load32 w.mem w.f.esp = SYS_EXIT) :
    s_exit s w = Res.stop Stop.exited
        { w with log := w.log ++ [Event.call Handler.s_exit [s],
            Event.printf_exit w.t.name s, Event.thread_exit] }
      ∧ syscall_handler sv w = Res.stop Stop.exited
        { w with f := { w.f with eax := load32 w.mem (w.f.esp + 4) },
                 log := w.log ++ [Event.call Handler.s_exit [toInt32 (load32 w.mem (w.f.esp + 4))],
                   Event.printf_exit w.t.name (toInt32 (load32 w.mem (w.f.esp + 4))),
                   Event.thread_exit] } := by
  have hsp : w.f.esp + 12 < PHYS_BASE := hframe 3 (le_refl 3)
  have h4 : ptr_add w.f.esp 4 = w.f.esp + 4 :=
    ptr_add_small _ _ (by unfold PHYS_BASE at hsp; omega)
  have h8 : ptr_add w.f.esp 8 = w.f.esp + 8 :=
    ptr_add_small _ _ (by unfold PHYS_BASE at hsp; omega)
  have h12 : ptr_add w.f.esp 12 = w.f.esp + 12 :=
    ptr_add_small _ _ (by unfold PHYS_BASE at hsp; omega)
  have b0 : ¬ PHYS_BASE ≤ w.f.esp := by omega
  have b4 : ¬ PHYS_BASE ≤ w.f.esp + 4 := by omega
  have b8 : ¬ PHYS_BASE ≤ w.f.esp + 8 := by omega
  have b12 : ¬ PHYS_BASE ≤ w.f.esp + 12 := by omega
  have p1 := parse_syscall_args_valid w w.f.esp 1 (by decide) hsp
  refine ⟨s_exit_run s w, ?_⟩
  simp [syscall_handler, get_esp, read32, is_user_vaddr, SYS_HALT, SYS_EXIT, SYS_INUMBER,
    h4, h8, h12, b0, b4, b8, b12, p1, hcode, stack_args, List.range_succ]

/-- Witness of C18: the exit call with status 7 in the fresh process, whose notice
is the line `main: exit(7)`. -/
theorem C18_exit_notice_and_dispatch_witness :
    (s_exit 7 exit_frame = Res.stop Stop.exited
        { exit_frame with log := exit_frame.log ++ [Event.call Handler.s_exit [7],
            Event.printf_exit exit_frame.t.name 7, Event.thread_exit] }
      ∧ syscall_handler demo exit_frame = Res.stop Stop.exited
        { exit_frame with
            f := { exit_frame.f with eax := load32 exit_frame.mem (exit_frame.f.esp + 4) },
            log := exit_frame.log
              ++ [Event.call Handler.s_exit [toInt32 (load32 exit_frame.mem (exit_frame.f.esp + 4))],
                Event.printf_exit exit_frame.t.name
                  (toInt32 (load32 exit_frame.mem (exit_frame.f.esp + 4))),
                Event.thread_exit] })
      ∧ toInt32 (load32 exit_frame.mem (exit_frame.f.esp + 4)) = 7
      ∧ exit_notice exit_frame.t.name 7 = "main: exit(7)\n" :=
  ⟨C18_exit_notice_and_dispatch demo exit_frame 7 (by decide) (by decide), by decide, by decide⟩

/-- C19, at the failing input. The span of 8 bytes at 3221225464 ends exactly at
`PHYS_BASE` and lies below it; the buffer check of `s_write` and of `s_read`
rejects it, both return -1 and neither reaches the console. -/
theorem C19_span_ending_at_boundary_is_rejected :
    (3221225464 < PHYS_BASE ∧ 3221225464 + 8 = PHYS_BASE)
      ∧ (s_write demo 1 3221225464 8 fresh).value = some (-1)
      ∧ new_events fresh (s_write demo 1 3221225464 8 fresh)
        = [Event.call Handler.s_write [1, 3221225464, 8]]
      ∧ (s_read demo 0 3221225464 8 fresh).value = some (-1)
      ∧ new_events fresh (s_read demo 0 3221225464 8 fresh)
        = [Event.call Handler.s_read [0, 3221225464, 8]] := by
  decide

/-- C20. On a frame that passed the validation, for an argument count `n` of at
most 3, which every operation has: `parse_syscall_args` returns the `n` words above
the stack pointer and leaves the world, and with it the log, as it was, so
`thread_exit` is not called; the final `sp` is `sp + 4 * n`, below `PHYS_BASE`;
the words are read from the addresses of `parse_reads`, all below `PHYS_BASE`. -/
theorem C20_parse_recheck_never_fires {K : Type} (w : World K) (sp n : Nat) (hn : n ≤ 3)
    (hframe : ∀ i, i ≤ 3 → sp + 4 * i < PHYS_BASE) :
    (∀ h : Handler, h.argc ≤ 3)
      ∧ parse_syscall_args sp n w = Res.ret (stack_args w.mem sp n) w
      ∧ (parse_loop w.mem n sp).2 = sp + 4 * n
      ∧ sp + 4 * n < PHYS_BASE
      ∧ (parse_loop w.mem n sp).1 = (parse_reads n sp).map (load32 w.mem)
      ∧ ∀ a, a ∈ parse_reads n sp → a < PHYS_BASE := by
  have hsp : sp + 12 < PHYS_BASE := hframe 3 (le_refl 3)
  have h4 : ptr_add sp 4 = sp + 4 := ptr_add_small _ _ (by unfold PHYS_BASE at hsp; omega)
  have h8 : ptr_add (sp + 4) 4 = sp + 8 :=
    ptr_add_small _ _ (by unfold PHYS_BASE at hsp; omega)
  have h12 : ptr_add (sp + 8) 4 = sp + 12 :=
    ptr_add_small _ _ (by unfold PHYS_BASE at hsp; omega)
  refine ⟨?_, parse_syscall_args_valid w sp n hn hsp, ?_, by omega, ?_, ?_⟩
  · intro h
    cases h <;> decide
  · interval_cases n <;> simp [parse_loop, h4, h8, h12]
  · interval_cases n <;> simp [parse_loop, parse_reads, h4, h8, h12]
  · interval_cases n <;> simp [parse_reads, h4, h8, h12] <;> omega

/-- Witness of C20: three arguments above the stack pointer 4096. -/
theorem C20_parse_recheck_never_fires_witness :
    (∀ h : Handler, h.argc ≤ 3)
      ∧ parse_syscall_args 4096 3 fresh = Res.ret (stack_args fresh.mem 4096 3) fresh
      ∧ (parse_loop fresh.mem 3 4096).2 = 4096 + 4 * 3
      ∧ 4096 + 4 * 3 < PHYS_BASE
      ∧ (parse_loop fresh.mem 3 4096).1 = (parse_reads 3 4096).map (load32 fresh.mem)
      ∧ ∀ a, a ∈ parse_reads 3 4096 → a < PHYS_BASE :=
  C20_parse_recheck_never_fires fresh 4096 3 (by decide) (by decide)

end Pintos
